import Mathlib

/-
Verification of the resumable bulk-remediation scripts in this repository
(robust_venture_fix.py, improved_venture_fix.py, persistent_venture_fix.py,
ultra_robust_venture_fix.py, final_venture_fix.py).

The remote API is modelled by explicit oracles: a response oracle gives the
outcome of each HTTP attempt, and every embedded operation returns the list
of API calls it issued, so that claims about which remote calls happen (and
how often) become statements about these traces.  Monetary values are
modelled as rationals; the two-decimal formatting of the scripts is
value-preserving for the comparisons the claims are about.
-/

/-- Outcome of one HTTP attempt: a status code, or a raised exception
(timeout, connection error, and so on). -/
inductive Resp where
  | status (code : Nat)
  | exn
deriving DecidableEq

/-- The requests library treats a response as ok when its status is
below 400. -/
def Resp.ok : Resp → Bool
  | .status c => decide (c < 400)
  | .exn => false

/-- One observable API interaction.  The products GraphQL query and the
product GET are read-only; the image-position PUT, the variant-price PUT and
the metafieldsSet POST mutate remote state.  acquireRateLimit records a
consultation of the rate limiter, httpRequest an HTTP request whose method is
abstracted. -/
inductive ApiCall where
  | getProduct (pid : Nat)
  | putImagePos (pid imgId pos : Nat)
  | putVariantPrice (vid : Nat) (price : ℚ)
  | postProductsQuery (page : Nat)
  | postMetafieldsSet (vid : Nat) (value : ℚ)
  | acquireRateLimit
  | httpRequest
deriving DecidableEq

/-- Whether a call writes remote state. -/
def ApiCall.isMutating : ApiCall → Bool
  | .putImagePos _ _ _ => true
  | .putVariantPrice _ _ => true
  | .postMetafieldsSet _ _ => true
  | _ => false

/-- Whether a call actually goes over the network (the rate-limiter
consultation does not). -/
def ApiCall.isRemoteCall : ApiCall → Bool
  | .acquireRateLimit => false
  | _ => true

/-- First variant of a product as returned by the GraphQL queries: the
numeric variant id (the last segment of the variant gid), the current price
and the unit cost.  The gid itself carries no product id; its segments are
reconstructed by Ultra.variantGidParts. -/
structure VariantInfo where
  variantNum : Nat
  price : ℚ
  cost : Option ℚ
deriving DecidableEq

/-- A product node from the GraphQL products query. -/
structure Product where
  legacyResourceId : Nat
  title : String
  variants : List VariantInfo
deriving DecidableEq

/-- Python truthiness of the unit-cost value used in the scripts
(if cost: ...) once read as a number. -/
def costTruthy : Option ℚ → Bool
  | none => false
  | some x => decide (x ≠ 0)

namespace Robust

/-- robust_venture_fix.py main: dry_run = args.dry_run or not args.apply. -/
def dryRunMode (applyFlag dryRunFlag : Bool) : Bool :=
  dryRunFlag || !applyFlag

/-- Price target of update_variant_price: cost * 2.20. -/
def targetPrice (cost : ℚ) : ℚ := cost * (22 / 10)

/-- VentureProgressTracker: the four persisted progress collections. -/
structure Tracker where
  processedProducts : List Nat
  updatedImages : List Nat
  updatedPrices : List Nat
  failedProducts : List (Nat × String)
deriving DecidableEq

/-- swap_product_images: in dry-run it returns True with no calls;
otherwise it GETs the product, and when at least two images exist it
unconditionally PUTs image 1 to position 2 and image 2 to position 1,
without comparing the observed order to any target. -/
def swapProductImages (dryRun : Bool) (pid : Nat) (remoteImages : List Nat)
    (getOk put1Ok put2Ok : Bool) : Bool × List ApiCall :=
  if dryRun then (true, [])
  else
    if !getOk then (false, [ApiCall.getProduct pid])
    else
      match remoteImages with
      | firstImg :: secondImg :: _ =>
          (put1Ok && put2Ok,
            [ApiCall.getProduct pid, ApiCall.putImagePos pid firstImg 2,
              ApiCall.putImagePos pid secondImg 1])
      | _ => (true, [ApiCall.getProduct pid])

/-- update_variant_price: in dry-run it returns True with no calls;
otherwise it PUTs the computed target price without reading the current
price first. -/
def updateVariantPrice (dryRun : Bool) (v : VariantInfo) (cost : ℚ)
    (putOk : Bool) : Bool × List ApiCall :=
  if dryRun then (true, [])
  else (putOk, [ApiCall.putVariantPrice v.variantNum (targetPrice cost)])

/-- The image half of process_product: skip when already recorded updated,
otherwise run the swap and record success or failure. -/
def imageStep (t : Tracker) (dryRun : Bool) (pid : Nat) (remoteImages : List Nat)
    (getOk put1Ok put2Ok : Bool) : Bool × Tracker × List ApiCall :=
  if pid ∈ t.updatedImages then (true, t, [])
  else
    let r := swapProductImages dryRun pid remoteImages getOk put1Ok put2Ok
    if r.1 then (true, { t with updatedImages := pid :: t.updatedImages }, r.2)
    else (false,
      { t with failedProducts := (pid, ("Image swap failed")) :: t.failedProducts }, r.2)

/-- The price half of process_product: runs only when a variant exists, the
product is not recorded price-updated, and the cost is truthy. -/
def priceStep (t : Tracker) (dryRun : Bool) (pid : Nat) (variants : List VariantInfo)
    (putPriceOk : Bool) : Bool × Tracker × List ApiCall :=
  match variants with
  | [] => (true, t, [])
  | v :: _ =>
      if pid ∈ t.updatedPrices then (true, t, [])
      else
        match v.cost with
        | none => (true, t, [])
        | some c =>
            if c = 0 then (true, t, [])
            else
              let r := updateVariantPrice dryRun v c putPriceOk
              if r.1 then (true, { t with updatedPrices := pid :: t.updatedPrices }, r.2)
              else (false,
                { t with failedProducts := (pid, ("Price update failed")) :: t.failedProducts }, r.2)

/-- Per-item result triple of process_product. -/
structure StepResults where
  skipped : Bool
  images : Bool
  price : Bool
deriving DecidableEq

/-- process_product: skip items whose id is recorded processed, else run
the image and price sub-steps and mark the item processed when both
succeed. -/
def processProduct (t : Tracker) (dryRun : Bool) (p : Product)
    (remoteImages : List Nat) (getOk put1Ok put2Ok putPriceOk : Bool) :
    StepResults × Tracker × List ApiCall :=
  let pid := p.legacyResourceId
  if pid ∈ t.processedProducts then (⟨true, true, true⟩, t, [])
  else
    let ir := imageStep t dryRun pid remoteImages getOk put1Ok put2Ok
    let pr := priceStep ir.2.1 dryRun pid p.variants putPriceOk
    let t2 :=
      if ir.1 && pr.1 then
        { pr.2.1 with processedProducts := pid :: pr.2.1.processedProducts }
      else pr.2.1
    (⟨false, ir.1, pr.1⟩, t2, ir.2.2 ++ pr.2.2)

/-- One POST of the paginated products query per page fetched. -/
def fetchCalls : Nat → List ApiCall
  | 0 => []
  | n + 1 => fetchCalls n ++ [ApiCall.postProductsQuery n]

/-- The call trace of run: enumerate (read-only), filter out processed
items, then process each remaining item, threading the tracker. -/
def processList (dryRun : Bool) : Tracker → List Product → (Nat → List Nat) →
    (Nat → Bool × Bool × Bool × Bool) → List ApiCall
  | _, [], _, _ => []
  | t, p :: ps, img, oks =>
      let o := oks p.legacyResourceId
      let r := processProduct t dryRun p (img p.legacyResourceId) o.1 o.2.1 o.2.2.1 o.2.2.2
      r.2.2 ++ processList dryRun r.2.1 ps img oks

/-- Remaining items of run: those the tracker does not record processed. -/
def remainingList (products : List Product) (t : Tracker) : List Product :=
  products.filter (fun p => decide (p.legacyResourceId ∉ t.processedProducts))

/-- Full call trace of one run. -/
def runModelCalls (dryRun : Bool) (numPages : Nat) (products : List Product)
    (t : Tracker) (img : Nat → List Nat)
    (oks : Nat → Bool × Bool × Bool × Bool) : List ApiCall :=
  fetchCalls numPages ++ processList dryRun t (remainingList products t) img oks

/-- Outcome of processing one item in the run loop: a result triple, or an
exception escaping process_product. -/
inductive ItemOutcome where
  | res (r : StepResults)
  | exn (msg : String)
deriving DecidableEq

/-- Counters and ledger state carried by the run loop, plus the list of
items the loop actually entered (for stating that no item is skipped by a
predecessor failure). -/
structure RunState where
  successCount : Nat
  errorCount : Nat
  failed : List (Nat × String)
  visited : List Nat
deriving DecidableEq

/-- The per-item loop of run: exceptions from one item are caught, counted,
recorded in the failure ledger, and the loop continues with the next
item. -/
def runLoop (step : Product → ItemOutcome) : List Product → RunState → RunState
  | [], st => st
  | p :: ps, st =>
      let st1 := { st with visited := st.visited ++ [p.legacyResourceId] }
      let st2 :=
        match step p with
        | .res r =>
            if r.skipped then st1
            else if r.images && r.price then
              { st1 with successCount := st1.successCount + 1 }
            else { st1 with errorCount := st1.errorCount + 1 }
        | .exn e =>
            { st1 with errorCount := st1.errorCount + 1,
                       failed := (p.legacyResourceId, e) :: st1.failed }
      runLoop step ps st2

end Robust

namespace Final

/-- final_venture_fix.py target metafield value: cost * 1.75. -/
def expectedKostpris (cost : ℚ) : ℚ := cost * (7 / 4)

/-- The kostpris planning step: a write is planned only when the cost is
truthy and the currently observed metafield value differs from the computed
target; an equal current value is skipped. -/
def planKostprisEntry (variantId : Nat) (cost : Option ℚ)
    (currentKostpris : Option ℚ) : Option (Nat × ℚ) :=
  match cost with
  | none => none
  | some c =>
      if c = 0 then none
      else
        if currentKostpris = some (expectedKostpris c) then none
        else some (variantId, expectedKostpris c)

end Final

namespace Persistent

/-- wait_with_backoff: delay = base_delay * 2 ^ min(attempt, 6) plus a
jitter drawn from the interval from 0 to 2. -/
def backoffDelay (baseDelay : ℚ) (attempt : Nat) (jitter : ℚ) : ℚ :=
  baseDelay * 2 ^ (min attempt 6) + jitter

/-- Result of make_request_persistent: the response it returned (none when
all attempts were used up, mirroring the Python return None), the number of
HTTP requests performed, and the call trace.  No rate limiter exists in
this variant, so the trace never contains acquireRateLimit. -/
structure ReqResult where
  response : Option Resp
  requests : Nat
  events : List ApiCall
deriving DecidableEq

/-- The retry loop of make_request_persistent, recursing on the attempts
that remain.  A 429 sleeps and retries; an ok response returns; any other
HTTP error, timeout, connection error or exception backs off and retries. -/
def makeRequestGo (responses : Nat → Resp) :
    Nat → Nat → Nat → List ApiCall → ReqResult
  | _, 0, reqs, evs => ⟨none, reqs, evs⟩
  | attempt, remaining + 1, reqs, evs =>
      let r := responses attempt
      let reqs2 := reqs + 1
      let evs2 := evs ++ [ApiCall.httpRequest]
      if r = Resp.status 429 then
        makeRequestGo responses (attempt + 1) remaining reqs2 evs2
      else if r.ok then ⟨some r, reqs2, evs2⟩
      else makeRequestGo responses (attempt + 1) remaining reqs2 evs2

/-- make_request_persistent with its attempt bound (the script calls it
with max_retries = 10). -/
def makeRequestPersistent (responses : Nat → Resp) (maxRetries : Nat) : ReqResult :=
  makeRequestGo responses 0 maxRetries 0 []

/-- The while-True retry loop of update_price_persistent, indexed by the
number of loop iterations examined (fuel): none means the loop has not
returned within that many iterations.  Iteration k makes a full
make_request_persistent pass with its own response sequence; a returned
response exits with True, a None result sleeps 15 seconds and loops. -/
def updatePriceLoopGo (responses : Nat → Nat → Resp) : Nat → Nat → Option Bool
  | _, 0 => none
  | iter, fuel + 1 =>
      match (makeRequestPersistent (responses iter) 10).response with
      | some _ => some true
      | none => updatePriceLoopGo responses (iter + 1) fuel

/-- update_price_persistent: dry-run returns True at once; otherwise the
unbounded retry loop runs. -/
def updatePricePersistent (dryRun : Bool) (responses : Nat → Nat → Resp)
    (fuel : Nat) : Option Bool :=
  if dryRun then some true else updatePriceLoopGo responses 0 fuel

/-- The update-price loop never returns, however many iterations are
examined. -/
def updatePriceStalls (responses : Nat → Nat → Resp) : Prop :=
  ∀ fuel, updatePricePersistent false responses fuel = none

/-- The resume filter of run: keep the products whose id the progress set
does not contain. -/
def remainingProducts (products : List Product) (processed : List Nat) :
    List Product :=
  products.filter (fun p => decide (p.legacyResourceId ∉ processed))

end Persistent

namespace Improved

/-- The two per-item sub-steps of improved_venture_fix.py. -/
inductive SubStep where
  | imageSwap
  | priceUpdate
deriving DecidableEq

/-- process_product of improved_venture_fix.py: the only progress record is
the per-item processed set, written only when both sub-steps succeed; there
is no per-sub-step record, so a non-skipped item always executes the image
swap, and the price update whenever a variant with truthy cost exists.  The
returned list is the sub-steps that issue remote calls (empty in
dry-run). -/
def processProduct (processed : List Nat) (dryRun : Bool) (p : Product)
    (imageOk priceOk : Bool) : Bool × List Nat × List SubStep :=
  if p.legacyResourceId ∈ processed then (true, processed, [])
  else
    let imageSuccess := if dryRun then true else imageOk
    let doPrice :=
      match p.variants with
      | [] => false
      | v :: _ => costTruthy v.cost
    let priceSuccess := if doPrice then (if dryRun then true else priceOk) else true
    let success := imageSuccess && priceSuccess
    let processed2 := if success then p.legacyResourceId :: processed else processed
    let executed := (if dryRun then ([] : List SubStep) else [SubStep.imageSwap]) ++
      (if doPrice && !dryRun then [SubStep.priceUpdate] else [])
    (success, processed2, executed)

/-- Outcome of one page fetch in fetch_venture_products. -/
inductive PageResp where
  | ok (items : List Product) (nextCursor : Option Nat)
  | httpErr (code : Nat)
  | gqlErr
  | exn
deriving DecidableEq

/-- The pagination loop of fetch_venture_products: a non-ok response, a
GraphQL error or an exception breaks out of the loop, returning whatever
has been accumulated so far; no error is raised to the caller.  Pages are
indexed by position in the cursor chain; fuel bounds the chain length. -/
def fetchGo (pages : Nat → PageResp) : Nat → Nat → List Product → List Product
  | _, 0, acc => acc
  | pageIdx, fuel + 1, acc =>
      match pages pageIdx with
      | .httpErr _ => acc
      | .gqlErr => acc
      | .exn => acc
      | .ok items next =>
          match next with
          | none => acc ++ items
          | some _ => fetchGo pages (pageIdx + 1) fuel (acc ++ items)

/-- fetch_venture_products from the first page. -/
def fetchVentureProducts (pages : Nat → PageResp) (fuel : Nat) : List Product :=
  fetchGo pages 0 fuel []

/-- The resume filter of run. -/
def remainingList (products : List Product) (processed : List Nat) :
    List Product :=
  products.filter (fun p => decide (p.legacyResourceId ∉ processed))

/-- The per-item loop of run: step answers some success-flag, or none for
an exception escaping process_product (caught, counted as an error, loop
continues).  State is (successCount, errorCount, visited ids). -/
def runLoop (step : Product → Option Bool) :
    List Product → Nat × Nat × List Nat → Nat × Nat × List Nat
  | [], st => st
  | p :: ps, (s, e, vis) =>
      let vis2 := vis ++ [p.legacyResourceId]
      let st2 :=
        match step p with
        | some true => (s + 1, e, vis2)
        | some false => (s, e + 1, vis2)
        | none => (s, e + 1, vis2)
      runLoop step ps st2

end Improved

namespace Ultra

/-- Persisted progress of ultra_robust_venture_fix.py: processed items,
per-sub-step success sets, and the failure map.  price_updated holds the
keys the script computes from the variant gid (see priceKey), which are
strings, not product ids. -/
structure UltraState where
  processed : List Nat
  imageUpdated : List Nat
  priceUpdated : List String
  failed : List (Nat × String)
deriving DecidableEq

/-- In-memory rate-limiter counters of the updater. -/
structure RLState where
  requestsThisMinute : Nat
  lastMinuteReset : ℚ
  consecutiveFailures : Nat
deriving DecidableEq

/-- rate_limit_check with an explicit clock: reset the counter when the
window is older than 60 seconds; when 20 requests were already counted in
the window, sleep to the end of the window and reset; then sleep either the
failure-proportional delay (jitterA models uniform(0.1, 0.5)) or the base
delay (jitterB models uniform(1.5, 3.0)); finally count this request.
Returns the advanced clock and the new counters. -/
def rateLimitCheck (now : ℚ) (st : RLState) (jitterA jitterB : ℚ) :
    ℚ × RLState :=
  let st1 :=
    if 60 < now - st.lastMinuteReset then
      ⟨0, now, st.consecutiveFailures⟩
    else st
  let p2 :=
    if 20 ≤ st1.requestsThisMinute then
      let sleepTime := 60 - (now - st1.lastMinuteReset)
      if 0 < sleepTime then
        (now + sleepTime, (⟨0, now + sleepTime, st1.consecutiveFailures⟩ : RLState))
      else (now, st1)
    else (now, st1)
  let extra :=
    if 0 < p2.2.consecutiveFailures then
      min 5 ((p2.2.consecutiveFailures : ℚ) * (1 / 2)) + jitterA
    else jitterB
  (p2.1 + extra,
    ⟨p2.2.requestsThisMinute + 1, p2.2.lastMinuteReset, p2.2.consecutiveFailures⟩)

/-- Price target of update_price_robust: cost * 2.20. -/
def targetPrice (cost : ℚ) : ℚ := cost * (22 / 10)

/-- The bounded attempt loop of update_price_robust.  Every attempt first
consults the rate limiter, then PUTs the price: 429 sleeps and moves to the
next attempt, an ok response succeeds, any other error retries while
attempts remain and otherwise fails.  The trace accumulates
acquireRateLimit immediately before each request. -/
def updatePriceGo (v : VariantInfo) (cost : ℚ) (responses : Nat → Resp) :
    Nat → Nat → List ApiCall → Bool × List ApiCall
  | _, 0, evs => (false, evs)
  | attempt, remaining + 1, evs =>
      if responses attempt = Resp.status 429 then
        updatePriceGo v cost responses (attempt + 1) remaining (evs ++
          [ApiCall.acquireRateLimit, ApiCall.putVariantPrice v.variantNum (targetPrice cost)])
      else if (responses attempt).ok then
        (true, evs ++
          [ApiCall.acquireRateLimit, ApiCall.putVariantPrice v.variantNum (targetPrice cost)])
      else if 0 < remaining then
        updatePriceGo v cost responses (attempt + 1) remaining (evs ++
          [ApiCall.acquireRateLimit, ApiCall.putVariantPrice v.variantNum (targetPrice cost)])
      else
        (false, evs ++
          [ApiCall.acquireRateLimit, ApiCall.putVariantPrice v.variantNum (targetPrice cost)])

/-- The variant gid split at the slashes, as Python sees it: the gid
gid://shopify/ProductVariant/<n> splits into
["gid:", "", "shopify", "ProductVariant", "<n>"]. -/
def variantGidParts (v : VariantInfo) : List String :=
  [("gid:"), (""), ("shopify"), ("ProductVariant"), toString v.variantNum]

/-- Python negative indexing l[-2] on a split list. -/
def idxNeg2 (l : List String) : String := (l.reverse.drop 1).headD ("")

/-- update_price_robust computes product_id = variant_id.split("/")[-2].
For a variant gid this is NOT the product id but the constant segment
"ProductVariant" — the same key for every variant of every product. -/
def priceKey (v : VariantInfo) : String := idxNeg2 (variantGidParts v)

/-- update_price_robust: dry-run returns True at once; when the computed
key (the constant gid segment, see priceKey) is already in the
price_updated set it returns True with no calls; otherwise the bounded
loop runs (3 attempts) and success records that key. -/
def updatePriceRobust (dryRun : Bool) (st : UltraState) (v : VariantInfo)
    (cost : ℚ) (responses : Nat → Resp) : Bool × UltraState × List ApiCall :=
  if dryRun then (true, st, [])
  else if priceKey v ∈ st.priceUpdated then (true, st, [])
  else
    let r := updatePriceGo v cost responses 0 3 []
    if r.1 then (true, { st with priceUpdated := priceKey v :: st.priceUpdated }, r.2)
    else (false, st, r.2)

/-- The bounded attempt loop of swap_images_robust.  Per attempt the
responses oracle gives the outcomes of the GET and of the two image PUTs;
each request is preceded by a rate-limiter consultation; 429 on any of the
three moves to the next attempt; fewer than two images succeeds after the
GET alone. -/
def swapImagesGo (remoteImages : List Nat) (pid : Nat)
    (responses : Nat → Resp × Resp × Resp) :
    Nat → Nat → List ApiCall → Bool × List ApiCall
  | _, 0, evs => (false, evs)
  | attempt, remaining + 1, evs =>
      if (responses attempt).1 = Resp.status 429 then
        swapImagesGo remoteImages pid responses (attempt + 1) remaining
          (evs ++ [ApiCall.acquireRateLimit, ApiCall.getProduct pid])
      else if !(responses attempt).1.ok then
        (if 0 < remaining then
          swapImagesGo remoteImages pid responses (attempt + 1) remaining
            (evs ++ [ApiCall.acquireRateLimit, ApiCall.getProduct pid])
        else (false, evs ++ [ApiCall.acquireRateLimit, ApiCall.getProduct pid]))
      else
        match remoteImages with
        | firstImg :: secondImg :: _ =>
            if (responses attempt).2.1 = Resp.status 429 then
              swapImagesGo remoteImages pid responses (attempt + 1) remaining
                (evs ++ [ApiCall.acquireRateLimit, ApiCall.getProduct pid,
                  ApiCall.acquireRateLimit, ApiCall.putImagePos pid firstImg 2])
            else if (responses attempt).2.2 = Resp.status 429 then
              swapImagesGo remoteImages pid responses (attempt + 1) remaining
                (evs ++ [ApiCall.acquireRateLimit, ApiCall.getProduct pid,
                  ApiCall.acquireRateLimit, ApiCall.putImagePos pid firstImg 2,
                  ApiCall.acquireRateLimit, ApiCall.putImagePos pid secondImg 1])
            else if (responses attempt).2.1.ok && (responses attempt).2.2.ok then
              (true, evs ++ [ApiCall.acquireRateLimit, ApiCall.getProduct pid,
                ApiCall.acquireRateLimit, ApiCall.putImagePos pid firstImg 2,
                ApiCall.acquireRateLimit, ApiCall.putImagePos pid secondImg 1])
            else if 0 < remaining then
              swapImagesGo remoteImages pid responses (attempt + 1) remaining
                (evs ++ [ApiCall.acquireRateLimit, ApiCall.getProduct pid,
                  ApiCall.acquireRateLimit, ApiCall.putImagePos pid firstImg 2,
                  ApiCall.acquireRateLimit, ApiCall.putImagePos pid secondImg 1])
            else
              (false, evs ++ [ApiCall.acquireRateLimit, ApiCall.getProduct pid,
                ApiCall.acquireRateLimit, ApiCall.putImagePos pid firstImg 2,
                ApiCall.acquireRateLimit, ApiCall.putImagePos pid secondImg 1])
        | _ => (true, evs ++ [ApiCall.acquireRateLimit, ApiCall.getProduct pid])

/-- swap_images_robust: dry-run returns True at once; a product already in
the image_updated set returns True with no calls; otherwise the bounded
loop runs (3 attempts) and success records the product id. -/
def swapImagesRobust (dryRun : Bool) (st : UltraState) (pid : Nat)
    (remoteImages : List Nat) (responses : Nat → Resp × Resp × Resp) :
    Bool × UltraState × List ApiCall :=
  if dryRun then (true, st, [])
  else if pid ∈ st.imageUpdated then (true, st, [])
  else
    let r := swapImagesGo remoteImages pid responses 0 3 []
    if r.1 then (true, { st with imageUpdated := pid :: st.imageUpdated }, r.2)
    else (false, st, r.2)

/-- The price part of process_product: runs when a variant with truthy
cost exists. -/
def ultraPriceStep (dryRun : Bool) (st : UltraState) (p : Product)
    (priceResp : Nat → Resp) : Bool × UltraState × List ApiCall :=
  match p.variants with
  | [] => (true, st, [])
  | v :: _ =>
      match v.cost with
      | none => (true, st, [])
      | some c =>
          if c = 0 then (true, st, [])
          else updatePriceRobust dryRun st v c priceResp

/-- process_product of ultra_robust_venture_fix.py: skip recorded items;
otherwise run both sub-steps, record failures, and mark the item processed
when AT LEAST ONE sub-step succeeded (image_success or price_success). -/
def processProduct (dryRun : Bool) (st : UltraState) (p : Product)
    (remoteImages : List Nat) (imgResp : Nat → Resp × Resp × Resp)
    (priceResp : Nat → Resp) : Bool × UltraState × List ApiCall :=
  let pid := p.legacyResourceId
  if pid ∈ st.processed then (true, st, [])
  else
    let ir := swapImagesRobust dryRun st pid remoteImages imgResp
    let st1 :=
      if ir.1 then ir.2.1
      else { ir.2.1 with failed := (pid, ("Image swap failed")) :: ir.2.1.failed }
    let pr := ultraPriceStep dryRun st1 p priceResp
    let st2 :=
      if pr.1 then pr.2.1
      else { pr.2.1 with failed := (pid, ("Price update failed")) :: pr.2.1.failed }
    let overall := ir.1 || pr.1
    let st3 :=
      if overall then { st2 with processed := pid :: st2.processed } else st2
    (overall, st3, ir.2.2 ++ pr.2.2)

end Ultra

/-- Pacing check on a call trace: every call that goes over the network
must be immediately preceded by a rate-limiter consultation; prev is the
call just before the remaining trace. -/
def pacedFrom (prev : Option ApiCall) : List ApiCall → Bool
  | [] => true
  | e :: rest =>
      (if e.isRemoteCall then decide (prev = some ApiCall.acquireRateLimit) else true)
        && pacedFrom (some e) rest

/-- A trace is paced when every remote call in it directly follows an
acquireRateLimit. -/
def paced (l : List ApiCall) : Bool := pacedFrom none l

/-- The last element of a trace, or a default when it is empty. -/
def lastOr : List ApiCall → Option ApiCall → Option ApiCall
  | [], dflt => dflt
  | e :: rest, _ => lastOr rest (some e)

/-- Concrete product for the idempotence counterexample: one image-less
product whose variant price already equals the computed target
(10 * 2.20 = 22). -/
def pCE : Product := ⟨301, ("CE"), [⟨9001, 22, some 10⟩]⟩

/-- An empty progress tracker (fresh run, or run after the progress file is
reset). -/
def tEmpty : Robust.Tracker := ⟨[], [], [], []⟩

/-- Concrete product for the sub-step monotonicity counterexample: variant
with cost 100, so both sub-steps run. -/
def pX : Product := ⟨101, ("X"), [⟨9001, 100, some 100⟩]⟩

/-- Concrete product delivered by the first enumeration page in the
work-enumeration counterexample. -/
def pA : Product := ⟨401, ("A"), []⟩

/-- Concrete page oracle: page 0 succeeds with one product and announces a
next page, page 1 fails with HTTP 500. -/
def pagesCE : Nat → Improved.PageResp
  | 0 => Improved.PageResp.ok [pA] (some 1)
  | _ => Improved.PageResp.httpErr 500

/-- Concrete two-item list and step oracle for the error-containment
witness: the first item raises, the second succeeds. -/
def pB : Product := ⟨402, ("B"), []⟩

def stepCE : Product → Robust.ItemOutcome := fun p =>
  if p.legacyResourceId = 401 then Robust.ItemOutcome.exn ("boom")
  else Robust.ItemOutcome.res ⟨false, true, true⟩

/-- A tracker that records product 301 as processed. -/
def tDone : Robust.Tracker := ⟨[301], [], [], []⟩

/-- A variant with numeric id 9001 and cost 100. -/
def vU : VariantInfo := ⟨9001, 100, some 100⟩

/-- A second variant, of a different product, with numeric id 9002. -/
def vOther : VariantInfo := ⟨9002, 50, some 20⟩

/-- A variant-less product with id 101. -/
def pU : Product := ⟨101, ("U"), []⟩

/-- Ultra progress where product 101 has its image swap recorded succeeded
and some price update has been recorded (under the shared key the script
computes), but no item is marked processed. -/
def stU3 : Ultra.UltraState := ⟨[], [101], [("ProductVariant")], []⟩

/-- Empty ultra progress. -/
def uEmpty : Ultra.UltraState := ⟨[], [], [], []⟩

/-- Fresh rate-limiter counters. -/
def rl0 : Ultra.RLState := ⟨0, 0, 0⟩

/-- Fresh run-loop counters. -/
def stEmptyRun : Robust.RunState := ⟨0, 0, [], []⟩

lemma length_filter_not {α : Type} (l : List α) (p : α → Bool) :
    (l.filter fun x => !(p x)).length = l.length - (l.filter p).length := by
  induction l with
  | nil => simp
  | cons x xs ih =>
      have hle := List.length_filter_le p xs
      by_cases hx : p x = true
      · simp [List.filter_cons, hx, ih]
      · simp only [Bool.not_eq_true] at hx
        simp [List.filter_cons, hx, ih]
        omega

lemma imageStep_dry (t : Robust.Tracker) (pid : Nat) (imgs : List Nat)
    (a b c : Bool) : (Robust.imageStep t true pid imgs a b c).2.2 = [] := by
  by_cases hmem : pid ∈ t.updatedImages
  · simp [Robust.imageStep, hmem]
  · simp [Robust.imageStep, Robust.swapProductImages, hmem]

lemma priceStep_dry (t : Robust.Tracker) (pid : Nat) (vs : List VariantInfo)
    (d : Bool) : (Robust.priceStep t true pid vs d).2.2 = [] := by
  rcases vs with _ | ⟨v, rest⟩
  · rfl
  · by_cases hmem : pid ∈ t.updatedPrices
    · simp [Robust.priceStep, hmem]
    · rcases hcost : v.cost with _ | c
      · simp [Robust.priceStep, hmem, hcost]
      · by_cases hz : c = 0 <;>
          simp [Robust.priceStep, Robust.updateVariantPrice, hmem, hcost, hz]

lemma robust_processProduct_dry (t : Robust.Tracker) (p : Product)
    (imgs : List Nat) (a b c d : Bool) :
    (Robust.processProduct t true p imgs a b c d).2.2 = [] := by
  by_cases hmem : p.legacyResourceId ∈ t.processedProducts
  · simp [Robust.processProduct, hmem]
  · simp [Robust.processProduct, hmem, imageStep_dry, priceStep_dry]

lemma processList_dry (t : Robust.Tracker) (ps : List Product)
    (img : Nat → List Nat) (oks : Nat → Bool × Bool × Bool × Bool) :
    Robust.processList true t ps img oks = [] := by
  induction ps generalizing t with
  | nil => rfl
  | cons p rest ih =>
      unfold Robust.processList
      simp [robust_processProduct_dry, ih]

lemma fetchCalls_no_mut (n : Nat) :
    (Robust.fetchCalls n).filter ApiCall.isMutating = [] := by
  induction n with
  | zero => rfl
  | succ k ih =>
      unfold Robust.fetchCalls
      simp [List.filter_append, ih, ApiCall.isMutating]

lemma makeRequestGo_requests_le (responses : Nat → Resp) :
    ∀ (remaining attempt reqs : Nat) (evs : List ApiCall),
      (Persistent.makeRequestGo responses attempt remaining reqs evs).requests ≤
        reqs + remaining := by
  intro remaining
  induction remaining with
  | zero => intro attempt reqs evs; simp [Persistent.makeRequestGo]
  | succ k ih =>
      intro attempt reqs evs
      unfold Persistent.makeRequestGo
      have hrec := ih (attempt + 1) (reqs + 1) (evs ++ [ApiCall.httpRequest])
      by_cases h429 : responses attempt = Resp.status 429
      · simp [h429]
        try omega
      · by_cases hok : (responses attempt).ok = true
        · simp [h429, hok]
          try omega
        · simp only [Bool.not_eq_true] at hok
          simp [h429, hok]
          try omega

lemma makeRequestGo_never_ok (responses : Nat → Resp)
    (h : ∀ n, (responses n).ok = false) :
    ∀ (remaining attempt reqs : Nat) (evs : List ApiCall),
      Persistent.makeRequestGo responses attempt remaining reqs evs =
        ⟨none, reqs + remaining, evs ++ List.replicate remaining ApiCall.httpRequest⟩ := by
  intro remaining
  induction remaining with
  | zero => intro attempt reqs evs; simp [Persistent.makeRequestGo]
  | succ k ih =>
      intro attempt reqs evs
      unfold Persistent.makeRequestGo
      have hrec := ih (attempt + 1) (reqs + 1) (evs ++ [ApiCall.httpRequest])
      by_cases h429 : responses attempt = Resp.status 429
      · simp only [h429, if_pos rfl] at hrec ⊢
        rw [hrec]
        simp [Persistent.ReqResult.mk.injEq, List.replicate_succ]
        try omega
      · simp only [if_neg h429, h attempt, Bool.false_eq_true, if_false]
        rw [hrec]
        simp [Persistent.ReqResult.mk.injEq, List.replicate_succ]
        try omega

lemma makeRequest_all500_none :
    (Persistent.makeRequestPersistent (fun _ => Resp.status 500) 10).response = none := by
  rw [Persistent.makeRequestPersistent,
    makeRequestGo_never_ok (fun _ => Resp.status 500) (fun _ => rfl) 10 0 0 []]

lemma updatePriceLoopGo_all500 :
    ∀ (fuel iter : Nat),
      Persistent.updatePriceLoopGo (fun _ _ => Resp.status 500) iter fuel = none := by
  intro fuel
  induction fuel with
  | zero => intro iter; rfl
  | succ k ih =>
      intro iter
      unfold Persistent.updatePriceLoopGo
      rw [makeRequest_all500_none]
      exact ih (iter + 1)

lemma updatePriceGo_remote_le (v : VariantInfo) (cost : ℚ) (responses : Nat → Resp) :
    ∀ (remaining attempt : Nat) (evs : List ApiCall),
      ((Ultra.updatePriceGo v cost responses attempt remaining evs).2.countP
          (fun e => e.isRemoteCall)) ≤
        (evs.countP fun e => e.isRemoteCall) + remaining := by
  intro remaining
  induction remaining with
  | zero => intro attempt evs; simp [Ultra.updatePriceGo]
  | succ k ih =>
      intro attempt evs
      have hcnt : ((evs ++ [ApiCall.acquireRateLimit,
          ApiCall.putVariantPrice v.variantNum (Ultra.targetPrice cost)]).countP
            (fun e => e.isRemoteCall)) =
          (evs.countP fun e => e.isRemoteCall) + 1 := by
        simp [List.countP_append, List.countP_cons, ApiCall.isRemoteCall]
      have hrec := ih (attempt + 1)
        (evs ++ [ApiCall.acquireRateLimit,
          ApiCall.putVariantPrice v.variantNum (Ultra.targetPrice cost)])
      rw [hcnt] at hrec
      unfold Ultra.updatePriceGo
      by_cases h429 : responses attempt = Resp.status 429
      · rw [if_pos h429]
        omega
      · rw [if_neg h429]
        by_cases hok : (responses attempt).ok = true
        · rw [if_pos hok, hcnt]
          omega
        · rw [if_neg hok]
          by_cases hrem : 0 < k
          · rw [if_pos hrem]
            omega
          · rw [if_neg hrem, hcnt]
            omega

lemma updatePriceGo_perm (v : VariantInfo) (cost : ℚ) (responses : Nat → Resp)
    (h : ∀ n, responses n ≠ Resp.status 429 ∧ (responses n).ok = false) :
    ∀ (remaining attempt : Nat) (evs : List ApiCall),
      (Ultra.updatePriceGo v cost responses attempt (remaining + 1) evs).1 = false ∧
      ((Ultra.updatePriceGo v cost responses attempt (remaining + 1) evs).2.countP
          (fun e => e.isMutating)) =
        (evs.countP fun e => e.isMutating) + (remaining + 1) := by
  intro remaining
  induction remaining with
  | zero =>
      intro attempt evs
      have hnok : ¬((responses attempt).ok = true) := by
        rw [(h attempt).2]; exact Bool.false_ne_true
      unfold Ultra.updatePriceGo
      rw [if_neg (h attempt).1, if_neg hnok, if_neg (Nat.lt_irrefl 0)]
      simp [List.countP_append, List.countP_cons, ApiCall.isMutating]
  | succ k ih =>
      intro attempt evs
      have hnok : ¬((responses attempt).ok = true) := by
        rw [(h attempt).2]; exact Bool.false_ne_true
      have hcnt : ((evs ++ [ApiCall.acquireRateLimit,
          ApiCall.putVariantPrice v.variantNum (Ultra.targetPrice cost)]).countP
            (fun e => e.isMutating)) =
          (evs.countP fun e => e.isMutating) + 1 := by
        simp [List.countP_append, List.countP_cons, ApiCall.isMutating]
      have hrec := ih (attempt + 1)
        (evs ++ [ApiCall.acquireRateLimit,
          ApiCall.putVariantPrice v.variantNum (Ultra.targetPrice cost)])
      rw [hcnt] at hrec
      unfold Ultra.updatePriceGo
      rw [if_neg (h attempt).1, if_neg hnok, if_pos (Nat.zero_lt_succ k)]
      exact ⟨hrec.1, by rw [hrec.2]; omega⟩

lemma pacedFrom_append (l1 l2 : List ApiCall) :
    ∀ prev, pacedFrom prev (l1 ++ l2) =
      (pacedFrom prev l1 && pacedFrom (lastOr l1 prev) l2) := by
  induction l1 with
  | nil => intro prev; simp [pacedFrom, lastOr]
  | cons e rest ih =>
      intro prev
      show pacedFrom prev (e :: (rest ++ l2)) = _
      rw [pacedFrom, pacedFrom, ih (some e)]
      rw [show lastOr (e :: rest) prev = lastOr rest (some e) from rfl]
      rw [Bool.and_assoc]

lemma pacedFrom_chunk (q : Option ApiCall) (x : ApiCall) :
    pacedFrom q [ApiCall.acquireRateLimit, x] = true := by
  rcases x <;> simp [pacedFrom, ApiCall.isRemoteCall]

lemma updatePriceGo_paced (v : VariantInfo) (cost : ℚ) (responses : Nat → Resp) :
    ∀ (remaining attempt : Nat) (evs : List ApiCall) (prev : Option ApiCall),
      pacedFrom prev ((Ultra.updatePriceGo v cost responses attempt remaining evs).2) =
        pacedFrom prev evs := by
  intro remaining
  induction remaining with
  | zero => intro attempt evs prev; rfl
  | succ k ih =>
      intro attempt evs prev
      have hch : pacedFrom prev (evs ++ [ApiCall.acquireRateLimit,
          ApiCall.putVariantPrice v.variantNum (Ultra.targetPrice cost)]) =
            pacedFrom prev evs := by
        rw [pacedFrom_append]
        simp [pacedFrom_chunk]
      unfold Ultra.updatePriceGo
      by_cases h429 : responses attempt = Resp.status 429
      · rw [if_pos h429, ih, hch]
      · rw [if_neg h429]
        by_cases hok : (responses attempt).ok = true
        · rw [if_pos hok]
          exact hch
        · rw [if_neg hok]
          by_cases hrem : 0 < k
          · rw [if_pos hrem, ih, hch]
          · rw [if_neg hrem]
            exact hch

lemma priceKey_const (v : VariantInfo) : Ultra.priceKey v = ("ProductVariant") := rfl

lemma ultra_skip (st : Ultra.UltraState) (p : Product) (imgs : List Nat)
    (ir : Nat → Resp × Resp × Resp) (pr : Nat → Resp)
    (h : p.legacyResourceId ∈ st.processed) :
    Ultra.processProduct false st p imgs ir pr = (true, st, []) := by
  simp [Ultra.processProduct, h]

lemma ultra_marks (st : Ultra.UltraState) (p : Product) (imgs : List Nat)
    (ir : Nat → Resp × Resp × Resp) (pr : Nat → Resp)
    (h2 : (Ultra.processProduct false st p imgs ir pr).1 = true) :
    p.legacyResourceId ∈ ((Ultra.processProduct false st p imgs ir pr).2.1).processed := by
  by_cases hg : p.legacyResourceId ∈ st.processed
  · simp [Ultra.processProduct, hg]
  · simp only [Ultra.processProduct, hg, if_false] at h2 ⊢
    simp only [h2, if_pos rfl]
    simp

lemma runLoop_visited (step : Product → Robust.ItemOutcome) :
    ∀ (ps : List Product) (st : Robust.RunState),
      (Robust.runLoop step ps st).visited =
        st.visited ++ ps.map (fun q => q.legacyResourceId) := by
  intro ps
  induction ps with
  | nil => intro st; simp [Robust.runLoop]
  | cons p rest ih =>
      intro st
      unfold Robust.runLoop
      rcases hsp : step p with r | e
      · by_cases hskip : r.skipped = true
        · simp [hsp, hskip, ih]
        · by_cases hboth : (r.images && r.price) = true
          · simp [hsp, hskip, hboth, ih]
          · simp [hsp, hskip, hboth, ih]
      · simp [hsp, ih]

lemma runLoop_failed_mono (step : Product → Robust.ItemOutcome) :
    ∀ (ps : List Product) (st : Robust.RunState) (x : Nat × String),
      x ∈ st.failed → x ∈ (Robust.runLoop step ps st).failed := by
  intro ps
  induction ps with
  | nil => intro st x hx; simpa [Robust.runLoop] using hx
  | cons p rest ih =>
      intro st x hx
      unfold Robust.runLoop
      rcases hsp : step p with r | e
      · simp only [hsp]
        by_cases hskip : r.skipped = true
        · rw [if_pos hskip]
          exact ih _ x hx
        · rw [if_neg hskip]
          by_cases hboth : (r.images && r.price) = true
          · rw [if_pos hboth]
            exact ih _ x hx
          · rw [if_neg hboth]
            exact ih _ x hx
      · simp only [hsp]
        exact ih _ x (List.mem_cons_of_mem _ hx)

lemma runLoop_exn_mem (step : Product → Robust.ItemOutcome) :
    ∀ (ps : List Product) (st : Robust.RunState) (p : Product) (e : String),
      p ∈ ps → step p = Robust.ItemOutcome.exn e →
      (p.legacyResourceId, e) ∈ (Robust.runLoop step ps st).failed := by
  intro ps
  induction ps with
  | nil => intro st p e hp; exact absurd hp (List.not_mem_nil p)
  | cons q rest ih =>
      intro st p e hp hstep
      rcases List.mem_cons.mp hp with heq | hmem
      · subst heq
        unfold Robust.runLoop
        simp only [hstep]
        exact runLoop_failed_mono step rest _ _ (by simp)
      · unfold Robust.runLoop
        rcases hsq : step q with r | e2
        · simp only [hsq]
          exact ih _ p e hmem hstep
        · simp only [hsq]
          exact ih _ p e hmem hstep

lemma improved_runLoop_visited (step : Product → Option Bool) :
    ∀ (ps : List Product) (s e : Nat) (vis : List Nat),
      (Improved.runLoop step ps (s, e, vis)).2.2 =
        vis ++ ps.map (fun q => q.legacyResourceId) := by
  intro ps
  induction ps with
  | nil => intro s e vis; simp [Improved.runLoop]
  | cons p rest ih =>
      intro s e vis
      unfold Improved.runLoop
      rcases hsp : step p with _ | b
      · simp [hsp, ih]
      · rcases b
        · simp [hsp, ih]
        · simp [hsp, ih]

lemma improved_fetch_partial (pages : Nat → Improved.PageResp)
    (items : List Product) (c code fuel : Nat)
    (h1 : pages 0 = Improved.PageResp.ok items (some c))
    (h2 : pages 1 = Improved.PageResp.httpErr code)
    (hf : 2 ≤ fuel) :
    Improved.fetchVentureProducts pages fuel = items := by
  rcases Nat.exists_eq_add_of_le hf with ⟨f, rfl⟩
  have hshape : 2 + f = (f + 1) + 1 := by omega
  rw [Improved.fetchVentureProducts, hshape]
  unfold Improved.fetchGo
  rw [h1]
  unfold Improved.fetchGo
  rw [h2]
  simp

/-- C1 counterexample: a concrete item whose remote state already meets the
target (no images to reorder, variant price already equal to the computed
cost * 2.20 target) and whose progress tracker is unchanged (empty, so the
item is not marked done) still gets one mutating remote call on a re-run:
the price sub-step never inspects the observed price before writing, so the
claim that each sub-step issues its write only if the target state is not
already met is false for this program. -/
theorem c1_counterexample :
    pCE.variants = [⟨9001, Robust.targetPrice 10, some 10⟩] ∧
    ((Robust.processProduct tEmpty false pCE [] true true true true).2.2.filter
        ApiCall.isMutating) =
      [ApiCall.putVariantPrice 9001 (Robust.targetPrice 10)] := by
  constructor
  · norm_num [pCE, Robust.targetPrice]
  · simp [Robust.processProduct, Robust.imageStep, Robust.priceStep,
      Robust.swapProductImages, Robust.updateVariantPrice, pCE, tEmpty,
      ApiCall.isMutating, List.filter]

/-- C1 (amended): re-running performs zero mutating remote calls for an item
only because the durable ledger filters it: an item recorded processed is
skipped before any call (robust variant), and only the kostpris sub-step of
the final variant inspects observed remote state, skipping its write when
the current metafield value already equals the computed target; the image
and price sub-steps issue their writes without any remote-state
comparison. -/
theorem c1_amended (t : Robust.Tracker) (dr : Bool) (p : Product)
    (imgs : List Nat) (a b c d : Bool) (vid : Nat) (cost cur : ℚ)
    (hp : p.legacyResourceId ∈ t.processedProducts)
    (hc : cur = Final.expectedKostpris cost) :
    (Robust.processProduct t dr p imgs a b c d).2.2 = [] ∧
    Final.planKostprisEntry vid (some cost) (some cur) = none := by
  constructor
  · simp [Robust.processProduct, hp]
  · by_cases hz : cost = 0
    · simp [Final.planKostprisEntry, hz]
    · simp [Final.planKostprisEntry, hz, hc]

/-- C1 witness: instantiates the amended theorem at product 301 with its id
recorded processed and a kostpris already at the computed target. -/
theorem c1_witness :
    pCE.legacyResourceId ∈ tDone.processedProducts ∧
    ((35 : ℚ) / 2 = Final.expectedKostpris 10) ∧
    ((Robust.processProduct tDone true pCE [] true true true true).2.2 = [] ∧
     Final.planKostprisEntry 9001 (some 10) (some (35 / 2)) = none) :=
  ⟨by simp [pCE, tDone], by norm_num [Final.expectedKostpris],
   c1_amended tDone true pCE [] true true true true 9001 10 (35 / 2)
     (by simp [pCE, tDone]) (by norm_num [Final.expectedKostpris])⟩

/-- C2: an item whose id the durable progress store records is dropped by
the resume filter and, even if reached, returns before any remote call; and
the remaining work is exactly the enumerated items minus those recorded
done (M minus N items). -/
theorem c2_resumability (products : List Product) (processed : List Nat)
    (p : Product) (t : Robust.Tracker) (dr : Bool) (imgs : List Nat)
    (a b c d : Bool)
    (hp : p.legacyResourceId ∈ processed)
    (ht : p.legacyResourceId ∈ t.processedProducts) :
    p ∉ Persistent.remainingProducts products processed ∧
    (Persistent.remainingProducts products processed).length =
      products.length -
        (products.filter (fun q => decide (q.legacyResourceId ∈ processed))).length ∧
    (Robust.processProduct t dr p imgs a b c d).1.skipped = true ∧
    (Robust.processProduct t dr p imgs a b c d).2.2 = [] := by
  refine ⟨?_, ?_, ?_, ?_⟩
  · intro hmem
    have hpred := (List.mem_filter.mp hmem).2
    simp at hpred
    exact hpred hp
  · have hlen := length_filter_not products
      (fun q => decide (q.legacyResourceId ∈ processed))
    simpa [Persistent.remainingProducts, decide_not] using hlen
  · simp [Robust.processProduct, ht]
  · simp [Robust.processProduct, ht]

/-- C2 witness: one enumerated product, recorded done in both progress
representations; the filter drops it and processing it directly makes no
calls. -/
theorem c2_witness :
    pCE.legacyResourceId ∈ [301] ∧ pCE.legacyResourceId ∈ tDone.processedProducts ∧
    (pCE ∉ Persistent.remainingProducts [pCE] [301] ∧
     (Persistent.remainingProducts [pCE] [301]).length =
       [pCE].length -
         ([pCE].filter (fun q => decide (q.legacyResourceId ∈ [301]))).length ∧
     (Robust.processProduct tDone false pCE [] true true true true).1.skipped = true ∧
     (Robust.processProduct tDone false pCE [] true true true true).2.2 = []) :=
  ⟨by simp [pCE], by simp [pCE, tDone],
   c2_resumability [pCE] [301] pCE tDone false [] true true true true
     (by simp [pCE]) (by simp [pCE, tDone])⟩

/-- C3 counterexample: in the improved variant an item whose image swap
sub-step succeeded but whose price sub-step failed is not recorded at all
(the processed set is written only on full success), so the next run
re-executes the already-succeeded image swap, contradicting that a sub-step
once recorded Succeeded is never re-executed and that only the failed
sub-step is retried. -/
theorem c3_counterexample :
    (Improved.processProduct [] false pX true false).1 = false ∧
    (Improved.processProduct [] false pX true false).2.1 = [] ∧
    Improved.SubStep.imageSwap ∈
      (Improved.processProduct
        (Improved.processProduct [] false pX true false).2.1 false pX true false).2.2 := by
  refine ⟨?_, ?_, ?_⟩ <;>
    norm_num [Improved.processProduct, pX, costTruthy]

/-- C3 (amended): per-sub-step skipping exists only in the ultra variant
and deviates from the claim twice over.  An item whose image swap is
recorded in image_updated never re-executes that sub-step (no remote
calls).  The price record, however, is keyed on the constant gid segment
computed by the script (variant_id split at slashes, index -2, which is
"ProductVariant" for every variant), so one recorded price success
suppresses the price sub-step of every later product, not only of the item
that succeeded.  And partial failures are not retried per sub-step: an
item whose image swap succeeds while its price update fails is still
marked processed (the source needs only one sub-step to succeed), so a
later run skips the whole item and the failed sub-step is never retried.
The improved variant keeps no per-sub-step record at all
(c3_counterexample). -/
theorem c3_amended (dr : Bool) (stA stB stC : Ultra.UltraState)
    (pA2 pC : Product) (imgsA imgsC : List Nat)
    (irA irC : Nat → Resp × Resp × Resp) (prB prC : Nat → Resp)
    (v w : VariantInfo) (cost : ℚ)
    (h1 : pA2.legacyResourceId ∈ stA.imageUpdated)
    (h1b : Ultra.priceKey w ∈ stB.priceUpdated)
    (hg : pC.legacyResourceId ∉ stC.processed)
    (himg : (Ultra.swapImagesRobust false stC pC.legacyResourceId imgsC irC).1 = true)
    (hpr : (Ultra.ultraPriceStep false
        (Ultra.swapImagesRobust false stC pC.legacyResourceId imgsC irC).2.1
        pC prC).1 = false) :
    Ultra.swapImagesRobust dr stA pA2.legacyResourceId imgsA irA = (true, stA, []) ∧
    Ultra.updatePriceRobust dr stB v cost prB = (true, stB, []) ∧
    (Ultra.processProduct false stC pC imgsC irC prC).1 = true ∧
    pC.legacyResourceId ∈
      ((Ultra.processProduct false stC pC imgsC irC prC).2.1).processed ∧
    Ultra.processProduct false ((Ultra.processProduct false stC pC imgsC irC prC).2.1)
        pC imgsC irC prC =
      (true, (Ultra.processProduct false stC pC imgsC irC prC).2.1, []) := by
  have h1b2 : ("ProductVariant") ∈ stB.priceUpdated := by
    rw [priceKey_const w] at h1b
    exact h1b
  have hov : (Ultra.processProduct false stC pC imgsC irC prC).1 = true := by
    simp only [Ultra.processProduct, hg, if_false]
    simp [himg, hpr]
  have hmem2 : pC.legacyResourceId ∈
      ((Ultra.processProduct false stC pC imgsC irC prC).2.1).processed :=
    ultra_marks stC pC imgsC irC prC hov
  refine ⟨?_, ?_, hov, hmem2, ultra_skip _ pC imgsC irC prC hmem2⟩
  · cases dr <;> simp [Ultra.swapImagesRobust, h1]
  · cases dr <;> simp [Ultra.updatePriceRobust, priceKey_const, h1b2]

/-- C3 witness: product 101 has its image swap recorded, so the swap is
skipped; a price success recorded under the shared constant key suppresses
the price update of an unrelated variant; and a fresh product 101 whose
image swap succeeds (nothing to swap) while its price update fails with
HTTP 400 is still marked processed, so its re-run does nothing. -/
theorem c3_witness :
    pU.legacyResourceId ∈ stU3.imageUpdated ∧
    Ultra.priceKey vU ∈ stU3.priceUpdated ∧
    pX.legacyResourceId ∉ uEmpty.processed ∧
    (Ultra.swapImagesRobust false uEmpty pX.legacyResourceId []
        (fun _ => (Resp.status 200, Resp.status 200, Resp.status 200))).1 = true ∧
    (Ultra.ultraPriceStep false
        (Ultra.swapImagesRobust false uEmpty pX.legacyResourceId []
          (fun _ => (Resp.status 200, Resp.status 200, Resp.status 200))).2.1
        pX (fun _ => Resp.status 400)).1 = false ∧
    (Ultra.swapImagesRobust false stU3 pU.legacyResourceId []
        (fun _ => (Resp.status 200, Resp.status 200, Resp.status 200)) =
      (true, stU3, []) ∧
     Ultra.updatePriceRobust false stU3 vOther 20 (fun _ => Resp.status 200) =
      (true, stU3, []) ∧
     (Ultra.processProduct false uEmpty pX []
        (fun _ => (Resp.status 200, Resp.status 200, Resp.status 200))
        (fun _ => Resp.status 400)).1 = true ∧
     pX.legacyResourceId ∈
       ((Ultra.processProduct false uEmpty pX []
          (fun _ => (Resp.status 200, Resp.status 200, Resp.status 200))
          (fun _ => Resp.status 400)).2.1).processed ∧
     Ultra.processProduct false
        ((Ultra.processProduct false uEmpty pX []
          (fun _ => (Resp.status 200, Resp.status 200, Resp.status 200))
          (fun _ => Resp.status 400)).2.1) pX []
        (fun _ => (Resp.status 200, Resp.status 200, Resp.status 200))
        (fun _ => Resp.status 400) =
       (true, (Ultra.processProduct false uEmpty pX []
          (fun _ => (Resp.status 200, Resp.status 200, Resp.status 200))
          (fun _ => Resp.status 400)).2.1, [])) :=
  ⟨by simp [pU, stU3],
   by simp [stU3, priceKey_const],
   by simp [pX, uEmpty],
   by simp [Ultra.swapImagesRobust, Ultra.swapImagesGo, uEmpty, pX, Resp.ok],
   by norm_num [Ultra.ultraPriceStep, Ultra.updatePriceRobust, Ultra.updatePriceGo,
     Ultra.swapImagesRobust, Ultra.swapImagesGo, uEmpty, pX, Resp.ok,
     Ultra.priceKey, Ultra.idxNeg2, Ultra.variantGidParts],
   c3_amended false stU3 stU3 uEmpty pU pX [] []
     (fun _ => (Resp.status 200, Resp.status 200, Resp.status 200))
     (fun _ => (Resp.status 200, Resp.status 200, Resp.status 200))
     (fun _ => Resp.status 200) (fun _ => Resp.status 400) vOther vU 20
     (by simp [pU, stU3])
     (by simp [stU3, priceKey_const])
     (by simp [pX, uEmpty])
     (by simp [Ultra.swapImagesRobust, Ultra.swapImagesGo, uEmpty, pX, Resp.ok])
     (by norm_num [Ultra.ultraPriceStep, Ultra.updatePriceRobust, Ultra.updatePriceGo,
       Ultra.swapImagesRobust, Ultra.swapImagesGo, uEmpty, pX, Resp.ok,
       Ultra.priceKey, Ultra.idxNeg2, Ultra.variantGidParts])⟩

/-- C4 counterexample: a permanent HTTP 400 response is not returned
immediately — make_request_persistent keeps retrying it with backoff and
performs all 10 attempts before giving up with None, so 4xx statuses other
than 429 are not treated differently from transient failures. -/
theorem c4_counterexample :
    (Persistent.makeRequestPersistent (fun _ => Resp.status 400) 10).requests = 10 ∧
    (Persistent.makeRequestPersistent (fun _ => Resp.status 400) 10).response = none := by
  rw [Persistent.makeRequestPersistent,
    makeRequestGo_never_ok (fun _ => Resp.status 400) (fun _ => rfl) 10 0 0 []]
  exact ⟨rfl, rfl⟩

/-- C4 (amended): 4xx statuses other than 429 are retried exactly like
transient failures: the persistent executor performs all maxRetries
attempts and returns None, and the ultra price updater performs all 3
attempts (each a mutating PUT) and returns False; nothing is returned
early for a permanent error. -/
theorem c4_amended (responses : Nat → Resp) (maxR : Nat) (v : VariantInfo)
    (cost : ℚ)
    (h : ∀ n, ∃ code, responses n = Resp.status code ∧
      400 ≤ code ∧ code < 500 ∧ code ≠ 429) :
    (Persistent.makeRequestPersistent responses maxR).response = none ∧
    (Persistent.makeRequestPersistent responses maxR).requests = maxR ∧
    (Ultra.updatePriceGo v cost responses 0 3 []).1 = false ∧
    ((Ultra.updatePriceGo v cost responses 0 3 []).2.countP
      (fun e => e.isMutating)) = 3 := by
  have hok : ∀ n, (responses n).ok = false := by
    intro n
    rcases h n with ⟨code, hcode, hge, _, _⟩
    rw [hcode]
    simp [Resp.ok]
    omega
  have h429 : ∀ n, responses n ≠ Resp.status 429 ∧ (responses n).ok = false := by
    intro n
    rcases h n with ⟨code, hcode, hge, hlt, hne⟩
    refine ⟨?_, hok n⟩
    rw [hcode]
    intro hcontra
    exact hne (by injection hcontra)
  have hmr := makeRequestGo_never_ok responses hok maxR 0 0 []
  rw [Persistent.makeRequestPersistent, hmr]
  have hp := updatePriceGo_perm v cost responses h429 2 0 []
  exact ⟨rfl, by show 0 + maxR = maxR; omega, hp.1, by simpa using hp.2⟩

/-- C4 witness: the all-400 oracle satisfies the permanent-error hypothesis
and exhausts both executors. -/
theorem c4_witness :
    (∀ n : Nat, ∃ code, (fun _ : Nat => Resp.status 400) n = Resp.status code ∧
      400 ≤ code ∧ code < 500 ∧ code ≠ 429) ∧
    ((Persistent.makeRequestPersistent (fun _ => Resp.status 400) 10).response = none ∧
     (Persistent.makeRequestPersistent (fun _ => Resp.status 400) 10).requests = 10 ∧
     (Ultra.updatePriceGo vU 100 (fun _ => Resp.status 400) 0 3 []).1 = false ∧
     ((Ultra.updatePriceGo vU 100 (fun _ => Resp.status 400) 0 3 []).2.countP
       (fun e => e.isMutating)) = 3) :=
  ⟨fun _ => ⟨400, rfl, by omega, by omega, by omega⟩,
   c4_amended (fun _ => Resp.status 400) 10 vU 100
     (fun _ => ⟨400, rfl, by omega, by omega, by omega⟩)⟩

/-- C5 counterexample: with page 0 succeeding (announcing a next page) and
page 1 failing, the improved variant does not abort: fetch returns the
partial one-product enumeration and the run loop then processes that
product, so item processing is performed on a partial enumeration instead
of a Fatal abort. -/
theorem c5_counterexample :
    Improved.fetchVentureProducts pagesCE 5 = [pA] ∧
    (Improved.runLoop (fun _ => some true)
        (Improved.remainingList (Improved.fetchVentureProducts pagesCE 5) [])
        (0, 0, [])).2.2 = [pA.legacyResourceId] := by
  have hf : Improved.fetchVentureProducts pagesCE 5 = [pA] :=
    improved_fetch_partial pagesCE [pA] 1 500 5 rfl rfl (by omega)
  refine ⟨hf, ?_⟩
  rw [hf]
  simp [Improved.remainingList, Improved.runLoop]

/-- C5 (amended): a failing page fetch in the improved variant ends
enumeration silently, returning the items of the pages before the failure,
and the run then processes exactly that partial set (the loop visits every
remaining item of the truncated enumeration); no Fatal error aborts the
run. -/
theorem c5_amended (pages : Nat → Improved.PageResp) (items : List Product)
    (c code fuel : Nat) (processed : List Nat) (step : Product → Option Bool)
    (h1 : pages 0 = Improved.PageResp.ok items (some c))
    (h2 : pages 1 = Improved.PageResp.httpErr code)
    (hf : 2 ≤ fuel) :
    Improved.fetchVentureProducts pages fuel = items ∧
    (Improved.runLoop step
        (Improved.remainingList (Improved.fetchVentureProducts pages fuel) processed)
        (0, 0, [])).2.2 =
      (Improved.remainingList items processed).map (fun q => q.legacyResourceId) := by
  have hfetch := improved_fetch_partial pages items c code fuel h1 h2 hf
  refine ⟨hfetch, ?_⟩
  rw [hfetch]
  simpa using improved_runLoop_visited step (Improved.remainingList items processed) 0 0 []

/-- C5 witness: the concrete failing-page oracle instantiates the amended
theorem. -/
theorem c5_witness :
    pagesCE 0 = Improved.PageResp.ok [pA] (some 1) ∧
    pagesCE 1 = Improved.PageResp.httpErr 500 ∧
    2 ≤ 5 ∧
    (Improved.fetchVentureProducts pagesCE 5 = [pA] ∧
     (Improved.runLoop (fun _ => some true)
        (Improved.remainingList (Improved.fetchVentureProducts pagesCE 5) [])
        (0, 0, [])).2.2 =
       (Improved.remainingList [pA] []).map (fun q => q.legacyResourceId)) :=
  ⟨rfl, rfl, by omega,
   c5_amended pagesCE [pA] 1 500 5 [] (fun _ => some true) rfl rfl (by omega)⟩

/-- C6: the robust run loop visits every item regardless of per-item
exceptions, and an exception raised for an item is recorded as that item's
failure in the tracker; no item's error aborts the batch or escapes the
loop. -/
theorem c6_containment (step : Product → Robust.ItemOutcome) (items : List Product)
    (st : Robust.RunState) (p : Product) (e : String)
    (hp : p ∈ items) (he : step p = Robust.ItemOutcome.exn e) :
    (Robust.runLoop step items st).visited =
      st.visited ++ items.map (fun q => q.legacyResourceId) ∧
    (p.legacyResourceId, e) ∈ (Robust.runLoop step items st).failed :=
  ⟨runLoop_visited step items st, runLoop_exn_mem step items st p e hp he⟩

/-- C6 witness: item 401 raises while item 402 succeeds; both are visited
and the exception is recorded against item 401. -/
theorem c6_witness :
    pA ∈ [pA, pB] ∧ stepCE pA = Robust.ItemOutcome.exn ("boom") ∧
    ((Robust.runLoop stepCE [pA, pB] stEmptyRun).visited =
        stEmptyRun.visited ++ [pA, pB].map (fun q => q.legacyResourceId) ∧
     (pA.legacyResourceId, ("boom")) ∈ (Robust.runLoop stepCE [pA, pB] stEmptyRun).failed) :=
  ⟨by simp, rfl,
   c6_containment stepCE [pA, pB] stEmptyRun pA ("boom") (by simp) rfl⟩

/-- C7 counterexample: with every request failing (HTTP 500 forever), the
while-True loop of update_price_persistent never returns, however many loop
iterations are examined — the per-item wait is unbounded, contradicting
the claim that every retry loop has a finite attempt bound. -/
theorem c7_counterexample :
    Persistent.updatePriceStalls (fun _ _ => Resp.status 500) := by
  intro fuel
  unfold Persistent.updatePricePersistent
  rw [if_neg (by simp : ¬(false = true))]
  exact updatePriceLoopGo_all500 fuel 0

/-- C7 (amended): the bounded pieces are the inner executors:
make_request_persistent performs at most maxRetries requests for any
response sequence, and the ultra price updater performs at most 3 remote
calls; the unbounded waiting comes from the outer while-True loops of the
persistent sub-steps, which retry these executors forever. -/
theorem c7_amended (responses : Nat → Resp) (maxR : Nat) (v : VariantInfo)
    (cost : ℚ) (priceResponses : Nat → Resp) :
    (Persistent.makeRequestPersistent responses maxR).requests ≤ maxR ∧
    ((Ultra.updatePriceGo v cost priceResponses 0 3 []).2.countP
      (fun e => e.isRemoteCall)) ≤ 3 := by
  constructor
  · simpa using makeRequestGo_requests_le responses maxR 0 0 []
  · simpa using updatePriceGo_remote_le v cost priceResponses 3 0 []

/-- C8 counterexample: the persistent variant performs remote calls with no
rate limiter at all — a successful request shows one remote call and zero
rate-limiter consultations in its trace, contradicting that the limiter is
consulted immediately before every remote call. -/
theorem c8_counterexample :
    ((Persistent.makeRequestPersistent (fun _ => Resp.status 200) 10).events.countP
        (fun e => decide (e = ApiCall.acquireRateLimit))) = 0 ∧
    ((Persistent.makeRequestPersistent (fun _ => Resp.status 200) 10).events.countP
        (fun e => e.isRemoteCall)) = 1 :=
  ⟨rfl, rfl⟩

/-- C8 (amended): only the ultra variant paces calls: its in-window request
counter never exceeds the 20-per-fixed-60-second-window ceiling (away from
the exact window boundary), and in its price updater every remote call in
the trace is immediately preceded by a rate_limit_check consultation,
retries included.  The window is fixed rather than rolling, and the
persistent variant has no limiter at all. -/
theorem c8_amended (now : ℚ) (st : Ultra.RLState) (ja jb : ℚ)
    (stU : Ultra.UltraState) (v : VariantInfo) (cost : ℚ)
    (responses : Nat → Resp) (dr : Bool)
    (h1 : st.requestsThisMinute ≤ 20)
    (h2 : now - st.lastMinuteReset ≠ 60) :
    (Ultra.rateLimitCheck now st ja jb).2.requestsThisMinute ≤ 20 ∧
    paced (Ultra.updatePriceRobust dr stU v cost responses).2.2 = true := by
  constructor
  · unfold Ultra.rateLimitCheck
    by_cases hA : 60 < now - st.lastMinuteReset
    · simp [hA]
    · by_cases hB : 20 ≤ st.requestsThisMinute
      · have hgap : now - st.lastMinuteReset < 60 :=
          lt_of_le_of_ne (not_lt.mp hA) h2
        have hpos : (0 : ℚ) < 60 - (now - st.lastMinuteReset) := by linarith
        simp [hA, hB, hpos]
      · simp only [hA, if_false, hB, if_false]
        omega
  · have hgo := updatePriceGo_paced v cost responses 3 0 [] none
    cases dr
    · by_cases hmem : Ultra.priceKey v ∈ stU.priceUpdated
      · simp [Ultra.updatePriceRobust, hmem, paced, pacedFrom]
      · simp only [Ultra.updatePriceRobust, Bool.false_eq_true, if_false,
          if_neg hmem]
        by_cases hr : (Ultra.updatePriceGo v cost responses 0 3 []).1 = true
        · rw [if_pos hr]
          exact hgo
        · rw [if_neg hr]
          exact hgo
    · simp [Ultra.updatePriceRobust, paced, pacedFrom]

/-- C8 witness: fresh counters away from the boundary, and a concrete
traced price update. -/
theorem c8_witness :
    rl0.requestsThisMinute ≤ 20 ∧
    ((0 : ℚ) - rl0.lastMinuteReset ≠ 60) ∧
    ((Ultra.rateLimitCheck 0 rl0 (3 / 10) 2).2.requestsThisMinute ≤ 20 ∧
     paced (Ultra.updatePriceRobust false uEmpty vU 100
        (fun _ => Resp.status 200)).2.2 = true) :=
  ⟨by simp [rl0], by norm_num [rl0],
   c8_amended 0 rl0 (3 / 10) 2 uEmpty vU 100 (fun _ => Resp.status 200) false
     (by simp [rl0]) (by norm_num [rl0])⟩

/-- C9: for any jitter sequence in the interval from 0 to 2 and base delay
at least 2, the wait_with_backoff delays of consecutive attempts are
non-decreasing while the exponent is below its cap (min attempt 6), and
every delay is bounded by base * 64 + 2, the capped exponential plus
maximal jitter. -/
theorem c9_backoff (baseDelay : ℚ) (j : Nat → ℚ) (n : Nat)
    (hb : 2 ≤ baseDelay) (hj : ∀ k, 0 ≤ j k ∧ j k ≤ 2) (hn : n + 1 ≤ 6) :
    Persistent.backoffDelay baseDelay n (j n) ≤
      Persistent.backoffDelay baseDelay (n + 1) (j (n + 1)) ∧
    Persistent.backoffDelay baseDelay n (j n) ≤ baseDelay * 64 + 2 := by
  have hmn : min n 6 = n := by omega
  have hmn1 : min (n + 1) 6 = n + 1 := by omega
  have hxall : ∀ m : Nat, (1 : ℚ) ≤ 2 ^ m := by
    intro m
    induction m with
    | zero => norm_num
    | succ k ihk =>
        rw [pow_succ]
        nlinarith
  have hx := hxall n
  constructor
  · rw [Persistent.backoffDelay, Persistent.backoffDelay, hmn, hmn1, pow_succ]
    have h1 := (hj n).2
    have h2 := (hj (n + 1)).1
    nlinarith
  · rw [Persistent.backoffDelay, hmn]
    have hle : (2 : ℚ) ^ n ≤ 2 ^ 6 := by
      apply pow_le_pow_right₀ (by norm_num)
      omega
    have h1 := (hj n).2
    have h64 : (2 : ℚ) ^ 6 = 64 := by norm_num
    nlinarith

/-- C9 witness: base 2, constant jitter 1, first attempt. -/
theorem c9_witness :
    (2 : ℚ) ≤ 2 ∧
    (∀ k : Nat, (0 : ℚ) ≤ (fun _ : Nat => (1 : ℚ)) k ∧
      (fun _ : Nat => (1 : ℚ)) k ≤ 2) ∧
    (0 + 1 ≤ 6) ∧
    (Persistent.backoffDelay 2 0 ((fun _ : Nat => (1 : ℚ)) 0) ≤
       Persistent.backoffDelay 2 (0 + 1) ((fun _ : Nat => (1 : ℚ)) (0 + 1)) ∧
     Persistent.backoffDelay 2 0 ((fun _ : Nat => (1 : ℚ)) 0) ≤ 2 * 64 + 2) :=
  ⟨by norm_num, fun _ => ⟨by norm_num, by norm_num⟩, by omega,
   c9_backoff 2 (fun _ => 1) 0 (by norm_num)
     (fun _ => ⟨by norm_num, by norm_num⟩) (by omega)⟩

/-- C10: when the apply flag is absent or the dry-run flag is given, the
run is in dry-run mode: its whole call trace contains no mutating call
(every mutating sub-step returns success without a PUT or POST), while the
read-only enumeration still happens — the trace starts with the page
queries. -/
theorem c10_dry_run (a d : Bool) (n : Nat) (ps : List Product)
    (t : Robust.Tracker) (img : Nat → List Nat)
    (oks : Nat → Bool × Bool × Bool × Bool)
    (h : a = false ∨ d = true) :
    Robust.dryRunMode a d = true ∧
    (Robust.runModelCalls (Robust.dryRunMode a d) n ps t img oks).filter
        ApiCall.isMutating = [] ∧
    (∃ rest, Robust.runModelCalls (Robust.dryRunMode a d) n ps t img oks =
      Robust.fetchCalls n ++ rest) := by
  have hdr : Robust.dryRunMode a d = true := by
    rcases h with h | h <;> simp [Robust.dryRunMode, h]
  refine ⟨hdr, ?_, ?_⟩
  · rw [hdr]
    unfold Robust.runModelCalls
    rw [List.filter_append, fetchCalls_no_mut, processList_dry]
    simp
  · unfold Robust.runModelCalls
    exact ⟨_, rfl⟩

/-- C10 witness: no apply flag, one enumeration page, one candidate
product. -/
theorem c10_witness :
    ((false : Bool) = false ∨ (false : Bool) = true) ∧
    (Robust.dryRunMode false false = true ∧
     (Robust.runModelCalls (Robust.dryRunMode false false) 1 [pCE] tEmpty
         (fun _ => [1, 2]) (fun _ => (true, true, true, true))).filter
        ApiCall.isMutating = [] ∧
     (∃ rest, Robust.runModelCalls (Robust.dryRunMode false false) 1 [pCE] tEmpty
         (fun _ => [1, 2]) (fun _ => (true, true, true, true)) =
       Robust.fetchCalls 1 ++ rest)) :=
  ⟨Or.inl rfl,
   c10_dry_run false false 1 [pCE] tEmpty (fun _ => [1, 2])
     (fun _ => (true, true, true, true)) (Or.inl rfl)⟩
